import Mathlib

/-!
Verification of the achievement evaluator of the Tranquili+ application
(`src/services/achievementService.ts`), shallowly embedded in Lean 4.

Embedding notes:
* `MoodEntry.date` is a calendar date with day-level granularity.  The
  source converts each date to `new Date(h.date).getTime()` (milliseconds
  since the epoch) and compares the difference of consecutive sorted
  values divided by `1000*60*60*24` against `1`.  For day-granular dates
  the time stamp is `day * 86400000`, so the comparison is exactly the
  difference of integer day indices.  We therefore embed the date as an
  integer day index (`Int`).
* `MoodEntry.mood` is a string at runtime (the TypeScript union
  `'happy' | 'calm' | ...` erases to a string); the evaluator compares it
  with `===` against the literals `'happy'` and `'calm'`, embedded as
  exact string equality.
* The JavaScript `Set<string>` of unlocked ids is embedded as a list of
  strings queried by membership; `ALL_ACHIEVEMENTS.map` with the spread
  `{...ach, unlocked}` is embedded as a `List.map` producing records.
* `.sort((a, b) => a - b)` on numbers is embedded as a comparison sort
  ascending (`List.insertionSort (· ≤ ·)`); only the resulting sorted
  list matters to the later loop.
-/

namespace TranquiliMais

/-- One self-reported mood on one calendar day (`types.ts`): `date` is the
integer day index of the entry's calendar date, `mood` the mood string. -/
structure MoodEntry where
  date : Int
  mood : String
deriving DecidableEq

/-- An achievement with its derived unlock flag (`types.ts`). -/
structure Achievement where
  id : String
  title : String
  description : String
  unlocked : Bool
deriving DecidableEq

/-- A catalog entry: `Omit<Achievement, 'unlocked'>`. -/
structure AchievementDef where
  id : String
  title : String
  description : String
deriving DecidableEq

/-- The fixed catalog `ALL_ACHIEVEMENTS` of `achievementService.ts`. -/
def ALL_ACHIEVEMENTS : List AchievementDef := [
  { id := "first_log", title := "Primeiro Passo",
    description := "Você registrou seu primeiro humor!" },
  { id := "three_day_streak", title := "Consistência é Chave",
    description := "Registrou o humor por 3 dias seguidos." },
  { id := "week_streak", title := "Hábito Saudável",
    description := "Registrou o humor por 7 dias seguidos." },
  { id := "first_happy", title := "Momento Feliz",
    description := "Registrou \"feliz\" pela primeira vez." },
  { id := "first_calm", title := "Encontrando a Calma",
    description := "Registrou \"calmo\" pela primeira vez." },
  { id := "first_chat", title := "Abrindo o Coração",
    description := "Iniciou sua primeira conversa com a Tranquilinha." }]

/-- `moodHistory.map(h => new Date(h.date).getTime()).sort((a,b) => a-b)`:
the entry dates as day indices, sorted ascending. -/
def sortedDates (h : List MoodEntry) : List Int :=
  List.insertionSort (· ≤ ·) (h.map MoodEntry.date)

/-- One iteration of the streak loop: given the previous sorted date
`prev`, the running streak `cur` and the current sorted date `x`, this is
the updated `currentStreak` (`diff === 1` increments, `diff > 1` resets
to 1, anything else — a duplicate day — leaves it unchanged). -/
def streakStep (prev : Int) (cur : Nat) (x : Int) : Nat :=
  if x - prev = 1 then cur + 1 else if 1 < x - prev then 1 else cur

/-- The streak loop walked over the remaining sorted dates, carrying the
previous date and the running `currentStreak`. -/
def streakWalk : Int → Nat → List Int → Nat
  | _, cur, [] => cur
  | prev, cur, x :: xs => streakWalk x (streakStep prev cur x) xs

/-- The value of `currentStreak` after the loop over a sorted date list:
it starts at 1 and is threaded through `streakStep` for each index `i ≥ 1`.
This is the value the source compares with the thresholds 3 and 7. -/
def endStreak : List Int → Nat
  | [] => 1
  | x :: xs => streakWalk x 1 xs

/-- The streak the source computes for a mood history (the end-of-loop
`currentStreak` over the sorted dates). -/
def codeStreak (h : List MoodEntry) : Nat := endStreak (sortedDates h)

/-- The contents of the `unlockedAchievements` set built by
`checkAchievements`, as a list of ids (membership is all that is used). -/
def unlockedSet (h : List MoodEntry) (c : Int) : List String :=
  (if 1 ≤ h.length then ["first_log"] else [])
  ++ (if 3 ≤ h.length then
        (if 3 ≤ codeStreak h then ["three_day_streak"] else [])
        ++ (if 7 ≤ codeStreak h then ["week_streak"] else [])
      else [])
  ++ (if h.any (fun e => e.mood == "happy") then ["first_happy"] else [])
  ++ (if h.any (fun e => e.mood == "calm") then ["first_calm"] else [])
  ++ (if 1 < c then ["first_chat"] else [])

/-- `checkAchievements(moodHistory, chatMessagesCount)`: maps the fixed
catalog to statuses whose `unlocked` flag is membership of the id in the
derived unlocked set. -/
def checkAchievements (h : List MoodEntry) (c : Int) : List Achievement :=
  ALL_ACHIEVEMENTS.map fun a =>
    { id := a.id, title := a.title, description := a.description,
      unlocked := (unlockedSet h c).contains a.id }

/-- The `unlocked` flag reported for a given achievement id in an
evaluation result (false if the id does not occur). -/
def unlockedFor (res : List Achievement) (i : String) : Bool :=
  match res.find? fun a => a.id == i with
  | some a => a.unlocked
  | none => false

/-- The streak walk as the specification describes it, additionally
tracking the maximum `currentStreak` observed during the walk. -/
def specWalk : Int → Nat → Nat → List Int → Nat
  | _, _, best, [] => best
  | prev, cur, best, x :: xs =>
      specWalk x (streakStep prev cur x) (max best (streakStep prev cur x)) xs

/-- The specification's streak for a sorted date list: the maximum
`currentStreak` observed during the walk (the length of the longest run
of consecutive calendar days).  This definition follows the words of the
specification, not the source, and is compared against `endStreak`. -/
def specStreakMax : List Int → Nat
  | [] => 0
  | x :: xs => specWalk x 1 1 xs

/-- The streak loop with the source's explicit array indexing made
fallible: `sortedDates[i]` and `sortedDates[i-1]` are looked up with
`List.get?`, and a missed lookup aborts with `none`.  Totality of the
source loop is the statement that this never returns `none`. -/
def streakLoopChecked (s : List Int) (i : Nat) (cur : Nat) : Option Nat :=
  if _hlt : i < s.length then
    match s.get? i, s.get? (i - 1) with
    | some a, some b => streakLoopChecked s (i + 1) (streakStep b cur a)
    | _, _ => none
  else some cur
termination_by s.length - i

/-- The checked streak computation: start at index 1 with `currentStreak = 1`. -/
def checkedStreak (s : List Int) : Option Nat := streakLoopChecked s 1 1

/-- The unlocked-id set with the streak value passed in (used to express
the checked evaluator); `unlockedSet h c` is definitionally this applied
to `codeStreak h`. -/
def unlockedSetWith (h : List MoodEntry) (c : Int) (s : Nat) : List String :=
  (if 1 ≤ h.length then ["first_log"] else [])
  ++ (if 3 ≤ h.length then
        (if 3 ≤ s then ["three_day_streak"] else [])
        ++ (if 7 ≤ s then ["week_streak"] else [])
      else [])
  ++ (if h.any (fun e => e.mood == "happy") then ["first_happy"] else [])
  ++ (if h.any (fun e => e.mood == "calm") then ["first_calm"] else [])
  ++ (if 1 < c then ["first_chat"] else [])

/-- `checkAchievements` with the source's indexed streak loop made
fallible: an out-of-bounds date lookup would abort the whole evaluation
with `none`. -/
def checkAchievementsChecked (h : List MoodEntry) (c : Int) :
    Option (List Achievement) :=
  match checkedStreak (sortedDates h) with
  | some s =>
      some (ALL_ACHIEVEMENTS.map fun a =>
        { id := a.id, title := a.title, description := a.description,
          unlocked := (unlockedSetWith h c s).contains a.id })
  | none => none

lemma checkAchievements_closed (h : List MoodEntry) (c : Int) :
    checkAchievements h c = [
      ⟨"first_log", "Primeiro Passo", "Você registrou seu primeiro humor!",
        decide (1 ≤ h.length)⟩,
      ⟨"three_day_streak", "Consistência é Chave", "Registrou o humor por 3 dias seguidos.",
        decide (3 ≤ h.length) && decide (3 ≤ codeStreak h)⟩,
      ⟨"week_streak", "Hábito Saudável", "Registrou o humor por 7 dias seguidos.",
        decide (3 ≤ h.length) && decide (7 ≤ codeStreak h)⟩,
      ⟨"first_happy", "Momento Feliz", "Registrou \"feliz\" pela primeira vez.",
        h.any fun e => e.mood == "happy"⟩,
      ⟨"first_calm", "Encontrando a Calma", "Registrou \"calmo\" pela primeira vez.",
        h.any fun e => e.mood == "calm"⟩,
      ⟨"first_chat", "Abrindo o Coração", "Iniciou sua primeira conversa com a Tranquilinha.",
        decide (1 < c)⟩] := by
  by_cases h1 : 1 ≤ h.length <;> by_cases h3 : 3 ≤ h.length <;>
    by_cases s3 : 3 ≤ codeStreak h <;> by_cases s7 : 7 ≤ codeStreak h <;>
    by_cases hh : h.any (fun e => e.mood == "happy") <;>
    by_cases hc : h.any (fun e => e.mood == "calm") <;>
    by_cases ch : 1 < c <;>
    simp [checkAchievements, unlockedSet, ALL_ACHIEVEMENTS, h1, h3, s3, s7, hh, hc, ch]

lemma unlockedFor_three_day (h : List MoodEntry) (c : Int) :
    unlockedFor (checkAchievements h c) "three_day_streak"
      = (decide (3 ≤ h.length) && decide (3 ≤ codeStreak h)) := by
  rw [checkAchievements_closed]; rfl

lemma unlockedFor_week (h : List MoodEntry) (c : Int) :
    unlockedFor (checkAchievements h c) "week_streak"
      = (decide (3 ≤ h.length) && decide (7 ≤ codeStreak h)) := by
  rw [checkAchievements_closed]; rfl

lemma perm_any {α : Type} {l1 l2 : List α} (p : l1.Perm l2) (f : α → Bool) :
    l1.any f = l2.any f := by
  apply Bool.eq_iff_iff.mpr
  simp only [List.any_eq_true]
  exact ⟨fun ⟨x, hx, hf⟩ => ⟨x, p.mem_iff.mp hx, hf⟩,
         fun ⟨x, hx, hf⟩ => ⟨x, p.mem_iff.mpr hx, hf⟩⟩

lemma sortedDates_perm {h1 h2 : List MoodEntry} (p : h1.Perm h2) :
    sortedDates h1 = sortedDates h2 :=
  List.eq_of_perm_of_sorted
    ((List.perm_insertionSort _ _).trans
      ((p.map _).trans (List.perm_insertionSort _ _).symm))
    (List.sorted_insertionSort _ _) (List.sorted_insertionSort _ _)

lemma codeStreak_perm {h1 h2 : List MoodEntry} (p : h1.Perm h2) :
    codeStreak h1 = codeStreak h2 := by
  unfold codeStreak; rw [sortedDates_perm p]

lemma checkAchievements_perm {h1 h2 : List MoodEntry} (p : h1.Perm h2) (c : Int) :
    checkAchievements h1 c = checkAchievements h2 c := by
  rw [checkAchievements_closed, checkAchievements_closed, p.length_eq,
    codeStreak_perm p, perm_any p (fun e => e.mood == "happy"),
    perm_any p (fun e => e.mood == "calm")]

lemma streakStep_self (x : Int) (cur : Nat) : streakStep x cur x = cur := by
  simp [streakStep]

lemma streakWalk_orderedInsert (d : Int) :
    ∀ (xs : List Int), List.Sorted (· ≤ ·) xs → d ∈ xs → ∀ (prev : Int) (cur : Nat),
      streakWalk prev cur (List.orderedInsert (· ≤ ·) d xs) = streakWalk prev cur xs := by
  intro xs
  induction xs with
  | nil => intro _ hd; cases hd
  | cons y ys ih =>
    intro hs hd prev cur
    rcases List.sorted_cons.mp hs with ⟨hy, hys⟩
    by_cases hdy : d ≤ y
    · have hyd : y ≤ d := by
        rcases List.mem_cons.mp hd with h | h
        · exact le_of_eq h.symm
        · exact hy d h
      have hde : d = y := le_antisymm hdy hyd
      subst hde
      simp only [List.orderedInsert, if_pos hdy, streakWalk, streakStep_self]
    · have hd2 : d ∈ ys := by
        rcases List.mem_cons.mp hd with h | h
        · exact absurd (le_of_eq h) hdy
        · exact h
      simp only [List.orderedInsert, if_neg hdy, streakWalk]
      exact ih hys hd2 y (streakStep prev cur y)

lemma endStreak_orderedInsert (d : Int) (s : List Int)
    (hs : List.Sorted (· ≤ ·) s) (hd : d ∈ s) :
    endStreak (List.orderedInsert (· ≤ ·) d s) = endStreak s := by
  cases s with
  | nil => cases hd
  | cons x xs =>
    rcases List.sorted_cons.mp hs with ⟨hx, hxs⟩
    by_cases hdx : d ≤ x
    · have hxd : x ≤ d := by
        rcases List.mem_cons.mp hd with h | h
        · exact le_of_eq h.symm
        · exact hx d h
      have hde : d = x := le_antisymm hdx hxd
      subst hde
      simp only [List.orderedInsert, if_pos hdx, endStreak, streakWalk, streakStep_self]
    · have hd2 : d ∈ xs := by
        rcases List.mem_cons.mp hd with h | h
        · exact absurd (le_of_eq h) hdx
        · exact h
      simp only [List.orderedInsert, if_neg hdx, endStreak]
      exact streakWalk_orderedInsert d xs hxs hd2 x 1

lemma sortedDates_append (h : List MoodEntry) (e : MoodEntry) :
    sortedDates (h ++ [e]) = List.orderedInsert (· ≤ ·) e.date (sortedDates h) := by
  have p1 : (sortedDates (h ++ [e])).Perm
      (List.orderedInsert (· ≤ ·) e.date (sortedDates h)) := by
    unfold sortedDates
    refine (List.perm_insertionSort _ _).trans ?_
    simp only [List.map_append, List.map_cons, List.map_nil]
    refine (List.perm_append_singleton _ _).trans ?_
    refine ((List.perm_insertionSort (fun a b : Int => a ≤ b) _).symm.cons _).trans ?_
    exact (List.perm_orderedInsert (fun a b : Int => a ≤ b) _ _).symm
  exact List.eq_of_perm_of_sorted p1 (List.sorted_insertionSort _ _)
    (List.Sorted.orderedInsert _ _ (List.sorted_insertionSort _ _))

lemma codeStreak_append_dup (h : List MoodEntry) (e : MoodEntry)
    (hd : e.date ∈ h.map MoodEntry.date) :
    codeStreak (h ++ [e]) = codeStreak h := by
  unfold codeStreak
  rw [sortedDates_append]
  exact endStreak_orderedInsert e.date (sortedDates h)
    (List.sorted_insertionSort _ _) ((List.mem_insertionSort (fun a b : Int => a ≤ b)).mpr hd)

lemma streakLoopChecked_eq :
    ∀ (k : Nat) (s : List Int) (i cur : Nat) (prev : Int), s.length - i = k → 1 ≤ i →
      s.get? (i - 1) = some prev →
      streakLoopChecked s i cur = some (streakWalk prev cur (s.drop i)) := by
  intro k
  induction k with
  | zero =>
    intro s i cur prev hk _ _
    have hle : s.length ≤ i := by omega
    rw [streakLoopChecked, dif_neg (by omega), List.drop_eq_nil_of_le hle]
    rfl
  | succ k ih =>
    intro s i cur prev hk hi hp
    have hlt : i < s.length := by omega
    have ha : s.get? i = some (s.get ⟨i, hlt⟩) := List.get?_eq_get hlt
    have hdrop : s.drop i = s.get ⟨i, hlt⟩ :: s.drop (i + 1) := List.drop_eq_getElem_cons hlt
    rw [streakLoopChecked, dif_pos hlt, ha, hp, hdrop]
    show streakLoopChecked s (i + 1) (streakStep prev cur (s.get ⟨i, hlt⟩)) = _
    rw [ih s (i + 1) (streakStep prev cur (s.get ⟨i, hlt⟩)) (s.get ⟨i, hlt⟩)
      (by omega) (by omega) ha]
    rfl

lemma checkedStreak_eq (s : List Int) : checkedStreak s = some (endStreak s) := by
  cases s with
  | nil =>
    rw [checkedStreak, streakLoopChecked, dif_neg (by simp)]
    rfl
  | cons x xs =>
    rw [checkedStreak, streakLoopChecked_eq xs.length (x :: xs) 1 1 x (by simp) (le_refl 1)
      (by simp)]
    rfl

/-- C1: the 'week_streak' achievement is claimed to unlock iff the longest
run of consecutive days anywhere in the history is at least 7, using the
maximum streak observed over the walk.  The source compares only the
end-of-walk `currentStreak`: for the history with day indices
0,1,2,3,4,5,6,8 the longest run (and the maximum observed during the
walk) is 7, yet the evaluator leaves 'week_streak' locked, because the
final gap resets the streak to 1 before the threshold comparison. -/
theorem week_streak_misses_historical_max :
    unlockedFor (checkAchievements
      [⟨0, "sad"⟩, ⟨1, "sad"⟩, ⟨2, "sad"⟩, ⟨3, "sad"⟩, ⟨4, "sad"⟩, ⟨5, "sad"⟩,
        ⟨6, "sad"⟩, ⟨8, "sad"⟩] 0) "week_streak" = false
    ∧ specStreakMax (sortedDates
        [⟨0, "sad"⟩, ⟨1, "sad"⟩, ⟨2, "sad"⟩, ⟨3, "sad"⟩, ⟨4, "sad"⟩, ⟨5, "sad"⟩,
          ⟨6, "sad"⟩, ⟨8, "sad"⟩]) = 7
    ∧ codeStreak
        [⟨0, "sad"⟩, ⟨1, "sad"⟩, ⟨2, "sad"⟩, ⟨3, "sad"⟩, ⟨4, "sad"⟩, ⟨5, "sad"⟩,
          ⟨6, "sad"⟩, ⟨8, "sad"⟩] = 1 := by
  decide

/-- C2: the 'three_day_streak' achievement is claimed to unlock iff the
log has at least 3 entries and the longest run of consecutive days is at
least 3.  For the history with day indices 0,1,2,4 the longest run (the
maximum streak observed during the walk) is 3 and the log has 4 entries,
yet the evaluator leaves 'three_day_streak' locked: the trailing gap of 2
days resets the end-of-walk streak to 1 before the comparison. -/
theorem three_day_streak_misses_historical_max :
    unlockedFor (checkAchievements
      [⟨0, "neutral"⟩, ⟨1, "neutral"⟩, ⟨2, "neutral"⟩, ⟨4, "neutral"⟩] 0)
      "three_day_streak" = false
    ∧ 3 ≤ ([⟨0, "neutral"⟩, ⟨1, "neutral"⟩, ⟨2, "neutral"⟩, ⟨4, "neutral"⟩] :
        List MoodEntry).length
    ∧ specStreakMax (sortedDates
        [⟨0, "neutral"⟩, ⟨1, "neutral"⟩, ⟨2, "neutral"⟩, ⟨4, "neutral"⟩]) = 3 := by
  decide

/-- C3: the computed maximum streak is claimed to be non-decreasing as
entries are added to the log.  The streak the evaluator actually computes
is the end-of-walk `currentStreak`, which drops from 3 to 1 when an entry
with day index 4 is appended to the history with day indices 0,1,2 — and
the already-reported 'three_day_streak' achievement is revoked by the
addition. -/
theorem codeStreak_append_can_decrease :
    codeStreak [⟨0, "calm"⟩, ⟨1, "calm"⟩, ⟨2, "calm"⟩] = 3
    ∧ codeStreak ([⟨0, "calm"⟩, ⟨1, "calm"⟩, ⟨2, "calm"⟩] ++ [⟨4, "calm"⟩]) = 1
    ∧ unlockedFor (checkAchievements [⟨0, "calm"⟩, ⟨1, "calm"⟩, ⟨2, "calm"⟩] 0)
        "three_day_streak" = true
    ∧ unlockedFor (checkAchievements
        ([⟨0, "calm"⟩, ⟨1, "calm"⟩, ⟨2, "calm"⟩] ++ [⟨4, "calm"⟩]) 0)
        "three_day_streak" = false := by
  decide

/-- C4: permuting the mood log does not change any output of
`checkAchievements`: the evaluator sorts the dates itself and all other
predicates are order-independent. -/
theorem checkAchievements_order_independence
    (h1 h2 : List MoodEntry) (c : Int) (p : h1.Perm h2) :
    checkAchievements h1 c = checkAchievements h2 c :=
  checkAchievements_perm p c

/-- Witness for C4 at a concrete permuted pair of logs. -/
theorem checkAchievements_order_independence_witness :
    ([⟨0, "happy"⟩, ⟨1, "calm"⟩] : List MoodEntry).Perm [⟨1, "calm"⟩, ⟨0, "happy"⟩]
    ∧ checkAchievements [⟨0, "happy"⟩, ⟨1, "calm"⟩] 2
        = checkAchievements [⟨1, "calm"⟩, ⟨0, "happy"⟩] 2 :=
  ⟨by decide, checkAchievements_order_independence _ _ 2 (by decide)⟩

/-- C5: appending an entry whose date already occurs in the log does not
change the computed streak: the duplicate produces a zero gap between
consecutive sorted day indices, which neither increments nor resets
`currentStreak`. -/
theorem codeStreak_duplicate_date_idempotent
    (h : List MoodEntry) (e : MoodEntry) (hd : e.date ∈ h.map MoodEntry.date) :
    codeStreak (h ++ [e]) = codeStreak h :=
  codeStreak_append_dup h e hd

/-- Witness for C5: duplicating day 1 of the 3-day history 0,1,2 leaves
the computed streak unchanged. -/
theorem codeStreak_duplicate_date_idempotent_witness :
    ((1 : Int) ∈ ([⟨0, "sad"⟩, ⟨1, "sad"⟩, ⟨2, "sad"⟩] : List MoodEntry).map
      MoodEntry.date)
    ∧ codeStreak ([⟨0, "sad"⟩, ⟨1, "sad"⟩, ⟨2, "sad"⟩] ++ [⟨1, "happy"⟩])
        = codeStreak [⟨0, "sad"⟩, ⟨1, "sad"⟩, ⟨2, "sad"⟩] :=
  ⟨by decide, codeStreak_duplicate_date_idempotent _ ⟨1, "happy"⟩ (by decide)⟩

/-- C6: whenever `checkAchievements` reports 'week_streak' as unlocked it
also reports 'three_day_streak' as unlocked: both are gated by the same
length test and the same streak value compared with 7 and 3. -/
theorem week_streak_implies_three_day_streak (h : List MoodEntry) (c : Int)
    (hw : unlockedFor (checkAchievements h c) "week_streak" = true) :
    unlockedFor (checkAchievements h c) "three_day_streak" = true := by
  rw [unlockedFor_week] at hw
  rw [unlockedFor_three_day]
  simp only [Bool.and_eq_true, decide_eq_true_eq] at hw ⊢
  exact ⟨hw.1, by omega⟩

/-- Witness for C6 at a 7-consecutive-day history. -/
theorem week_streak_implies_three_day_streak_witness :
    unlockedFor (checkAchievements
      [⟨0, "sad"⟩, ⟨1, "sad"⟩, ⟨2, "sad"⟩, ⟨3, "sad"⟩, ⟨4, "sad"⟩, ⟨5, "sad"⟩,
        ⟨6, "sad"⟩] 0) "week_streak" = true
    ∧ unlockedFor (checkAchievements
        [⟨0, "sad"⟩, ⟨1, "sad"⟩, ⟨2, "sad"⟩, ⟨3, "sad"⟩, ⟨4, "sad"⟩, ⟨5, "sad"⟩,
          ⟨6, "sad"⟩] 0) "three_day_streak" = true :=
  ⟨by decide, week_streak_implies_three_day_streak _ 0 (by decide)⟩

/-- C7: 'first_chat' is unlocked exactly when the chat message count is
strictly greater than 1; in particular counts 0 and 1 leave it locked and
counts 2 and 1000 unlock it. -/
theorem first_chat_threshold_exact (h : List MoodEntry) (c : Int) :
    unlockedFor (checkAchievements h c) "first_chat" = decide (1 < c) := by
  rw [checkAchievements_closed]; rfl

/-- C8: `checkAchievements` is total: the variant in which every indexed
array access of the streak loop is a fallible lookup never fails, and
returns exactly the value of the total evaluator, for every input —
including empty, duplicate-date, unordered and unrecognized-mood logs. -/
theorem checkAchievements_total (h : List MoodEntry) (c : Int) :
    checkAchievementsChecked h c = some (checkAchievements h c) := by
  rw [checkAchievementsChecked, checkedStreak_eq]
  rfl

/-- C9: the evaluator returns exactly one status per catalog definition,
in catalog order, carrying the catalog id, title and description, with an
unlocked flag freshly derived from the mood log and the chat count. -/
theorem checkAchievements_catalog_order (h : List MoodEntry) (c : Int) :
    checkAchievements h c = [
      ⟨"first_log", "Primeiro Passo", "Você registrou seu primeiro humor!",
        decide (1 ≤ h.length)⟩,
      ⟨"three_day_streak", "Consistência é Chave", "Registrou o humor por 3 dias seguidos.",
        decide (3 ≤ h.length) && decide (3 ≤ codeStreak h)⟩,
      ⟨"week_streak", "Hábito Saudável", "Registrou o humor por 7 dias seguidos.",
        decide (3 ≤ h.length) && decide (7 ≤ codeStreak h)⟩,
      ⟨"first_happy", "Momento Feliz", "Registrou \"feliz\" pela primeira vez.",
        h.any fun e => e.mood == "happy"⟩,
      ⟨"first_calm", "Encontrando a Calma", "Registrou \"calmo\" pela primeira vez.",
        h.any fun e => e.mood == "calm"⟩,
      ⟨"first_chat", "Abrindo o Coração", "Iniciou sua primeira conversa com a Tranquilinha.",
        decide (1 < c)⟩] :=
  checkAchievements_closed h c

/-- C10: 'first_happy' and 'first_calm' are decided by exact,
case-sensitive string equality of the mood field with 'happy' and 'calm';
in particular an entry with mood 'Happy' never unlocks 'first_happy'. -/
theorem mood_achievements_case_sensitive (h : List MoodEntry) (c : Int) :
    unlockedFor (checkAchievements h c) "first_happy"
        = h.any (fun e => e.mood == "happy")
    ∧ unlockedFor (checkAchievements h c) "first_calm"
        = h.any (fun e => e.mood == "calm")
    ∧ unlockedFor (checkAchievements [⟨0, "Happy"⟩] 0) "first_happy" = false := by
  refine ⟨?_, ?_, by decide⟩ <;> (rw [checkAchievements_closed]; rfl)

end TranquiliMais
